import Mathlib

/-
Verification development for the event-driven backtester
(sources: src/app/Portfolio.py and src/app/DataHandler/Binance.py).

Shallow embedding conventions:
- Python floats become ℚ (the spec demands exact, not approximate, equality).
- Python dicts keyed by symbol become total functions `String → _`; the
  dictionaries in the source are populated for exactly the symbols of
  `symbol_list`, so only those entries are ever meaningful.  Dictionary
  lookups that can raise `KeyError` on a missing symbol (the feed's
  `symbol_data` / `latest_symbol_data`) are modelled with `Option`, and a
  raised exception becomes an `Except.error` result.
- A pandas DataFrame row as produced by `iterrows()` is modelled as a pair
  `(label, row)`: the integer index label together with the row record.
  An all-NaN row produced by `reindex` padding before the first observation
  is modelled as `none`.
- The event queue (`queue.Queue`) is a FIFO modelled as a list; `put` appends
  at the tail.  `Portfolio.update_signal` can `put` Python `None`, so queue
  entries are `Option Event`.
-/

namespace Backtester

/-- Modelled from the spec: the `Signal` event variant of Event.py (not under
src/): `{symbol, signal_type ∈ {LONG, SHORT, EXIT}, strength}`. -/
structure SignalEvent where
  symbol : String
  signal_type : String
  strength : ℚ
  deriving DecidableEq

/-- Modelled from the spec: the `Order` event variant of Event.py (not under
src/): `{symbol, order_type, quantity, direction ∈ {BUY, SELL}}`. -/
structure OrderEvent where
  symbol : String
  order_type : String
  quantity : ℤ
  direction : String
  deriving DecidableEq

/-- Modelled from the spec: the `Fill` event variant of Event.py (not under
src/): `{symbol, quantity, direction ∈ {BUY, SELL}, fill_cost, commission}`. -/
structure FillEvent where
  symbol : String
  quantity : ℤ
  direction : String
  fill_cost : ℚ
  commission : ℚ
  deriving DecidableEq

/-- Modelled from the spec: the closed, tagged union of the four event kinds
(Event.py is not under src/).  `Market` carries no payload. -/
inductive Event where
  | market : Event
  | signal : SignalEvent → Event
  | order : OrderEvent → Event
  | fill : FillEvent → Event
  deriving DecidableEq

/-- The Python exceptions the two source files can raise, as an error type:
`unknownSymbol` is the `KeyError` raised by a symbol-dictionary lookup
(caught, logged and re-raised by every feed accessor), `indexError` is the
`IndexError` of `bars_list[-1]` on an empty list or `symbol_list[0]` on an
empty symbol list, `attributeError` is `getattr` with an unknown field name,
and `nanValue` marks a field projected out of an all-NaN padded row. -/
inductive FeedError where
  | unknownSymbol : FeedError
  | indexError : FeedError
  | attributeError : FeedError
  | nanValue : FeedError
  deriving DecidableEq

/-- One row of the per-symbol DataFrame built in
`BinanceDataHandler._load_data_from_binance`: the raw kline `Date` column
plus the five float columns (the six `Extra` columns are dropped). -/
structure BarRow where
  date : ℚ
  «open» : ℚ
  high : ℚ
  low : ℚ
  close : ℚ
  volume : ℚ
  deriving DecidableEq

/-- The state of `BinanceDataHandler`.  `symbol_data` maps each registered
symbol to the not-yet-consumed suffix of its `iterrows()` iterator (each item
is an index label paired with a row; `none` for an unregistered symbol models
the dict-missing `KeyError` case).  `latest_symbol_data` maps each registered
symbol to the list of bars consumed so far. -/
structure BinanceDataHandler where
  symbol_list : List String
  symbol_data : String → Option (List (ℕ × Option BarRow))
  latest_symbol_data : String → Option (List (ℕ × Option BarRow))
  continue_backtest : Bool

/-- The DataFrame built for one symbol in `_load_data_from_binance`, as the
list of `(index label, row)` pairs: pandas assigns the default `RangeIndex`
`0, 1, …, n-1` (the `Date` column is an ordinary column, not the index; the
source only renames the RangeIndex to "datetime"). -/
def dfIndexed (rows : List BarRow) : List (ℕ × BarRow) :=
  (List.range rows.length).zip rows

/-- The `combined_index` computed by the first loop of
`_load_data_from_binance`: it starts as `None`, is set to the first symbol's
index, and for every later symbol `combined_index.union(...)` is called but
its RESULT IS DISCARDED (`Index.union` is pure), so the combined index is
exactly the first symbol's `RangeIndex`. -/
def combinedIndexOf (symbol_list : List String) (raw : String → List BarRow) : List ℕ :=
  match symbol_list with
  | [] => []
  | s :: _ => List.range (raw s).length

/-- pandas label lookup for `reindex(..., method="pad")` on a monotonic
integer index: the value at target label `t` is the row whose label is the
largest one `≤ t`, or missing (an all-NaN row) when no label is `≤ t`. -/
def padLookup (rows : List (ℕ × BarRow)) (t : ℕ) : Option BarRow :=
  ((rows.filter fun p => decide (p.1 ≤ t)).getLast?).map Prod.snd

/-- Source `df.reindex(index=combined_index, method="pad")` followed by
`iterrows()`: one `(label, row-or-NaN)` item per label of the target index. -/
def reindexPad (rows : List (ℕ × BarRow)) (index : List ℕ) : List (ℕ × Option BarRow) :=
  index.map fun t => (t, padLookup rows t)

/-- Source `BinanceDataHandler.__init__` + `_load_data_from_binance`, with the
external HTTP retrieval abstracted into `raw` (the decoded kline rows per
symbol).  Both dictionaries are keyed by exactly the symbols of
`symbol_list`; every symbol's data is reindexed onto `combinedIndexOf`
(the first symbol's index — the later unions are discarded, see above) with
forward-fill padding, and every symbol's `latest` history starts empty. -/
def load_data_from_binance (symbol_list : List String) (raw : String → List BarRow) :
    BinanceDataHandler :=
  let combined_index := combinedIndexOf symbol_list raw
  { symbol_list := symbol_list
    symbol_data := fun s =>
      if s ∈ symbol_list then some (reindexPad (dfIndexed (raw s)) combined_index) else none
    latest_symbol_data := fun s => if s ∈ symbol_list then some [] else none
    continue_backtest := true }

/-- Source `getattr(row, value_type)` on the pandas Series of one row: the columns
are `Date, open, high, low, close, volume`; any other name raises
`AttributeError`. -/
def seriesAttr (row : BarRow) (value_type : String) : Except FeedError ℚ :=
  if value_type = "Date" then .ok row.date
  else if value_type = "open" then .ok row.«open»
  else if value_type = "high" then .ok row.high
  else if value_type = "low" then .ok row.low
  else if value_type = "close" then .ok row.close
  else if value_type = "volume" then .ok row.volume
  else .error FeedError.attributeError

/-- Source `BinanceDataHandler.get_latest_bar`: looks `symbol` up in
`latest_symbol_data` (a missing symbol's `KeyError` is logged and re-raised),
then returns `bars_list[-1]` (`IndexError` on an empty history). -/
def BinanceDataHandler.get_latest_bar (h : BinanceDataHandler) (symbol : String) :
    Except FeedError (ℕ × Option BarRow) :=
  match h.latest_symbol_data symbol with
  | none => .error FeedError.unknownSymbol
  | some bars_list =>
    match bars_list.getLast? with
    | none => .error FeedError.indexError
    | some b => .ok b

/-- Source `BinanceDataHandler.get_latest_bars`: `bars_list[-N:]` — the last `N`
bars, or all of them when fewer than `N` are available (and the whole list
when `N = 0`, since `bars_list[-0:]` is `bars_list[0:]`). -/
def BinanceDataHandler.get_latest_bars (h : BinanceDataHandler) (symbol : String) (N : ℕ) :
    Except FeedError (List (ℕ × Option BarRow)) :=
  match h.latest_symbol_data symbol with
  | none => .error FeedError.unknownSymbol
  | some bars_list =>
    .ok (if N = 0 then bars_list else bars_list.drop (bars_list.length - N))

/-- Source `BinanceDataHandler.get_latest_bar_datetime`: `bars_list[-1][0]` — the
index label of the last consumed bar. -/
def BinanceDataHandler.get_latest_bar_datetime (h : BinanceDataHandler) (symbol : String) :
    Except FeedError ℕ :=
  match h.latest_symbol_data symbol with
  | none => .error FeedError.unknownSymbol
  | some bars_list =>
    match bars_list.getLast? with
    | none => .error FeedError.indexError
    | some b => .ok b.1

/-- Source `BinanceDataHandler.get_latest_bar_value`:
`getattr(bars_list[-1][1], value_type)`. -/
def BinanceDataHandler.get_latest_bar_value (h : BinanceDataHandler) (symbol : String)
    (value_type : String) : Except FeedError ℚ :=
  match h.latest_symbol_data symbol with
  | none => .error FeedError.unknownSymbol
  | some bars_list =>
    match bars_list.getLast? with
    | none => .error FeedError.indexError
    | some b =>
      match b.2 with
      | none => .error FeedError.nanValue
      | some row => seriesAttr row value_type

/-- The `for symbol in self.symbol_list` loop of
`BinanceDataHandler.update_bars`: for each symbol, `next` on the (shared,
stateful) `iterrows` iterator either yields the next item — which is
appended to that symbol's `latest_symbol_data` (the item is a tuple, never
`None`, so the `if bar is not None` guard always passes) — or raises
`StopIteration`, caught to set `continue_backtest = False` and move on. -/
def updateBarsLoop : BinanceDataHandler → List String → Except FeedError BinanceDataHandler
  | h, [] => .ok h
  | h, symbol :: rest =>
    match h.symbol_data symbol with
    | none => .error FeedError.unknownSymbol
    | some [] => updateBarsLoop { h with continue_backtest := false } rest
    | some (bar :: remaining) =>
      match h.latest_symbol_data symbol with
      | none => .error FeedError.unknownSymbol
      | some latest =>
        updateBarsLoop
          { h with
            symbol_data := Function.update h.symbol_data symbol (some remaining)
            latest_symbol_data :=
              Function.update h.latest_symbol_data symbol (some (latest ++ [bar])) } rest

/-- Source `BinanceDataHandler.update_bars`: run the per-symbol loop, then
UNCONDITIONALLY `self.events.put(MarketEvent())` — the Market event is
enqueued even when every symbol is exhausted.  The event queue is threaded
explicitly as `events`. -/
def BinanceDataHandler.update_bars (h : BinanceDataHandler) (events : List (Option Event)) :
    Except FeedError (BinanceDataHandler × List (Option Event)) :=
  match updateBarsLoop h h.symbol_list with
  | .error e => .error e
  | .ok h' => .ok (h', events ++ [some Event.market])

/-- Modelled from the spec: the `Window` value handed to the portfolio and
the feed — `{start, end, interval}`; the portfolio only reads `start`
(`end` and `interval` are consumed by the external data retrieval, which is
abstracted away here). -/
structure Window where
  start : ℕ

/-- One row of the `all_positions` history: the per-symbol position
quantities (a dict keyed by `symbol_list`) plus the `datetime` key. -/
structure PositionsRow where
  pos : String → ℤ
  datetime : ℕ

/-- The `current_holdings` dict: per-symbol market-value entries plus the
`cash`, `commission` and `total` keys. -/
structure Holdings where
  value : String → ℚ
  cash : ℚ
  commission : ℚ
  total : ℚ

/-- One row of the `all_holdings` history: `current_holdings`' keys plus the
`datetime` key. -/
structure HoldingsRow where
  value : String → ℚ
  datetime : ℕ
  cash : ℚ
  commission : ℚ
  total : ℚ

/-- The state of `Portfolio`.  The source also stores references to the bars
feed and the event queue (`self.bars`, `self.events`); here both are passed
explicitly to the methods that use them.  `equity_curve` is the attribute
created only by `create_equity_curve_dataframe` (an explicit finalize step,
not modelled further), hence an `Option` that starts out absent. -/
structure Portfolio where
  symbol_list : List String
  initial_capital : ℚ
  all_positions : List PositionsRow
  current_positions : String → ℤ
  all_holdings : List HoldingsRow
  current_holdings : Holdings
  equity_curve : Option (List ℚ)

/-- Source `Portfolio.define_all_positions`: one initial row of zero positions
timestamped at the window start. -/
def define_all_positions (start_date : ℕ) : List PositionsRow :=
  [{ pos := fun _ => 0, datetime := start_date }]

/-- Source `Portfolio.define_all_holdings`: one initial row of zero per-symbol
values, `cash = total = initial_capital`, zero commission, timestamped at
the window start. -/
def define_all_holdings (start_date : ℕ) (initial_capital : ℚ) : List HoldingsRow :=
  [{ value := fun _ => 0, datetime := start_date, cash := initial_capital,
     commission := 0, total := initial_capital }]

/-- Source `Portfolio.define_current_holdings`. -/
def define_current_holdings (initial_capital : ℚ) : Holdings :=
  { value := fun _ => 0, cash := initial_capital, commission := 0,
    total := initial_capital }

/-- Source `Portfolio.__init__` (the stored `bars` and `events` references are
passed per-call instead). -/
def Portfolio.init (symbol_list : List String) (window : Window)
    (initial_capital : ℚ) : Portfolio :=
  { symbol_list := symbol_list
    initial_capital := initial_capital
    all_positions := define_all_positions window.start
    current_positions := fun _ => 0
    all_holdings := define_all_holdings window.start initial_capital
    current_holdings := define_current_holdings initial_capital
    equity_curve := none }

/-- The `for symbol in self.symbol_list` loop of
`Portfolio.update_timeindex`: starting from the all-zero per-symbol dict and
`holdings["total"] = current_holdings["cash"]`, set each symbol's entry to
`current_positions[symbol] * latest close` and add that market value to the
running total. -/
def timeindexFold (bars : BinanceDataHandler) (pos : String → ℤ) :
    List String → (String → ℚ) → ℚ → Except FeedError ((String → ℚ) × ℚ)
  | [], value, total => .ok (value, total)
  | symbol :: rest, value, total =>
    match bars.get_latest_bar_value symbol "close" with
    | .error e => .error e
    | .ok c =>
      let market_value := (pos symbol : ℚ) * c
      timeindexFold bars pos rest (Function.update value symbol market_value)
        (total + market_value)

/-- Source `Portfolio.update_timeindex`: timestamp = the feed's latest bar datetime
of `symbol_list[0]` (`IndexError` on an empty symbol list), append one row
copying `current_positions`, and append one holdings row with
`cash`/`commission` carried over from `current_holdings` and the per-symbol
market values and their sum computed by `timeindexFold`.  The `event`
argument is received from the dispatcher and never used. -/
def Portfolio.update_timeindex (p : Portfolio) (bars : BinanceDataHandler)
    (event : Event) : Except FeedError Portfolio :=
  match p.symbol_list with
  | [] => .error FeedError.indexError
  | s0 :: _ =>
    match bars.get_latest_bar_datetime s0 with
    | .error e => .error e
    | .ok latest_datetime =>
      match timeindexFold bars p.current_positions p.symbol_list (fun _ => 0)
          p.current_holdings.cash with
      | .error e => .error e
      | .ok (value, total) =>
        .ok { p with
          all_positions := p.all_positions ++
            [{ pos := p.current_positions, datetime := latest_datetime }]
          all_holdings := p.all_holdings ++
            [{ value := value, datetime := latest_datetime,
               cash := p.current_holdings.cash,
               commission := p.current_holdings.commission, total := total }] }

/-- The `fill_dir` computation inlined in both
`Portfolio.update_positions_after_fill` and
`Portfolio.update_holdings_after_fill`: `0`, overwritten with `1` when the
direction is `"BUY"` and with `-1` when it is `"SELL"`. -/
def fillDirectionSign (direction : String) : ℤ :=
  let fill_dir : ℤ := 0
  let fill_dir := if direction = "BUY" then 1 else fill_dir
  let fill_dir := if direction = "SELL" then -1 else fill_dir
  fill_dir

/-- Source `Portfolio.update_positions_after_fill`:
`current_positions[fill.symbol] += fill_dir * fill.quantity`. -/
def Portfolio.update_positions_after_fill (p : Portfolio) (fill : FillEvent) : Portfolio :=
  let fill_dir := fillDirectionSign fill.direction
  { p with current_positions :=
      (Function.update p.current_positions fill.symbol
        (p.current_positions fill.symbol + fill_dir * fill.quantity)) }

/-- Source `Portfolio.update_holdings_after_fill`: the fill cost is taken from the
feed's latest close price for the symbol (source comment: "unknown so set to
the market price" — the `FillEvent.fill_cost` field is NOT read), then
`cost = fill_dir * fill_cost * fill.quantity` is added to the symbol's
holdings entry, the commission is accumulated, and `(cost + commission)` is
subtracted from both `cash` and `total`. -/
def Portfolio.update_holdings_after_fill (p : Portfolio) (bars : BinanceDataHandler)
    (fill : FillEvent) : Except FeedError Portfolio :=
  let fill_dir := fillDirectionSign fill.direction
  match bars.get_latest_bar_value fill.symbol "close" with
  | .error e => .error e
  | .ok fill_cost =>
    let cost : ℚ := (fill_dir : ℚ) * fill_cost * (fill.quantity : ℚ)
    .ok { p with current_holdings :=
      { value := Function.update p.current_holdings.value fill.symbol
          (p.current_holdings.value fill.symbol + cost)
        cash := p.current_holdings.cash - (cost + fill.commission)
        commission := p.current_holdings.commission + fill.commission
        total := p.current_holdings.total - (cost + fill.commission) } }

/-- Source `Portfolio.update_fill`: on a `FillEvent` (the `isinstance` check),
update positions then holdings; any other event is ignored.  (In Python a
feed exception would propagate after the positions update already happened;
the claims below only concern the successful path, which this `Except`
threading captures.) -/
def Portfolio.update_fill (p : Portfolio) (bars : BinanceDataHandler) (event : Event) :
    Except FeedError Portfolio :=
  match event with
  | Event.fill f => (p.update_positions_after_fill f).update_holdings_after_fill bars f
  | _ => .ok p

/-- Source `Portfolio.generate_naive_order`: `order` starts as `None` and is
overwritten by each of the four sequential `if` statements whose condition
holds (the conditions are pairwise exclusive, so at most one fires). -/
def Portfolio.generate_naive_order (p : Portfolio) (signal : SignalEvent) :
    Option OrderEvent :=
  let symbol := signal.symbol
  let direction := signal.signal_type
  let strength := signal.strength
  let mkt_quantity : ℤ := Int.floor (100 * strength)
  let current_quantity := p.current_positions symbol
  let order_type := "MKT"
  let order : Option OrderEvent := none
  let order := if direction = "LONG" ∧ current_quantity = 0 then
    some { symbol := symbol, order_type := order_type, quantity := mkt_quantity,
           direction := "BUY" } else order
  let order := if direction = "SHORT" ∧ current_quantity = 0 then
    some { symbol := symbol, order_type := order_type, quantity := mkt_quantity,
           direction := "SELL" } else order
  let order := if direction = "EXIT" ∧ current_quantity > 0 then
    some { symbol := symbol, order_type := order_type, quantity := |current_quantity|,
           direction := "SELL" } else order
  let order := if direction = "EXIT" ∧ current_quantity < 0 then
    some { symbol := symbol, order_type := order_type, quantity := |current_quantity|,
           direction := "BUY" } else order
  order

/-- Source `Portfolio.update_signal`: on a `SignalEvent` (the `isinstance` check),
`self.events.put(self.generate_naive_order(event))` — the sizer's result is
enqueued UNCONDITIONALLY, so a `None` entry is put on the queue whenever the
sizer produces no order.  Other events leave portfolio and queue untouched. -/
def Portfolio.update_signal (p : Portfolio) (event : Event)
    (events : List (Option Event)) : Portfolio × List (Option Event) :=
  match event with
  | Event.signal s => (p, events ++ [(p.generate_naive_order s).map Event.order])
  | _ => (p, events)

/-
Shared helper lemmas.
-/

/-- Projecting the close column out of a row. -/
lemma seriesAttr_close (row : BarRow) : seriesAttr row "close" = .ok row.close := by
  simp [seriesAttr, show ("close" : String) ≠ "Date" from by decide,
    show ("close" : String) ≠ "open" from by decide,
    show ("close" : String) ≠ "high" from by decide,
    show ("close" : String) ≠ "low" from by decide]

/-- Projecting the Date column out of a row. -/
lemma seriesAttr_date (row : BarRow) : seriesAttr row "Date" = .ok row.date := by
  simp [seriesAttr]

/-- The direction sign of a BUY fill. -/
lemma fillDirectionSign_buy : fillDirectionSign "BUY" = 1 := by
  simp [fillDirectionSign, show ("BUY" : String) ≠ "SELL" from by decide]

/-- The direction sign of a SELL fill. -/
lemma fillDirectionSign_sell : fillDirectionSign "SELL" = -1 := by
  simp [fillDirectionSign]

/-- Updating a function at a point outside a list does not change the list's
image. -/
lemma map_update_of_not_mem (g : String → ℚ) (a : String) (x : ℚ) :
    ∀ l : List String, a ∉ l → l.map (Function.update g a x) = l.map g := by
  intro l
  induction l with
  | nil => intro _; rfl
  | cons b rest ih =>
    intro ha
    have hab : ¬(a = b ∨ a ∈ rest) := fun hor => ha (List.mem_cons.mpr hor)
    push_neg at hab
    simp only [List.map_cons]
    rw [Function.update_noteq (Ne.symm hab.1), ih hab.2]

/-- Summing a list image after a pointwise update at a member of a
duplicate-free list replaces that member's contribution. -/
lemma sum_map_update (g : String → ℚ) (a : String) (x : ℚ) :
    ∀ l : List String, l.Nodup → a ∈ l →
      (l.map (Function.update g a x)).sum = (l.map g).sum - g a + x := by
  intro l
  induction l with
  | nil => intro _ ha; cases ha
  | cons b rest ih =>
    intro hnd ha
    have hnd' := List.nodup_cons.mp hnd
    rcases List.mem_cons.mp ha with hab | har
    · subst hab
      simp only [List.map_cons, List.sum_cons, Function.update_same]
      rw [map_update_of_not_mem g a x rest hnd'.1]
      ring
    · have hba : b ≠ a := fun hba => hnd'.1 (hba ▸ har)
      simp only [List.map_cons, List.sum_cons, Function.update_noteq hba]
      rw [ih hnd'.2 har]
      ring

/-- Characterization of `timeindexFold` when every symbol's latest close is
available: it succeeds, the total accumulates every symbol's market value,
entries outside the list keep their initial value, and (for a
duplicate-free list) each listed symbol's entry is its market value. -/
lemma timeindexFold_spec (bars : BinanceDataHandler) (pos : String → ℤ)
    (close : String → ℚ) :
    ∀ (l : List String) (value : String → ℚ) (total : ℚ),
      (∀ s ∈ l, bars.get_latest_bar_value s "close" = .ok (close s)) →
      ∃ v : String → ℚ,
        timeindexFold bars pos l value total =
          .ok (v, total + (l.map fun s => (pos s : ℚ) * close s).sum) ∧
        (∀ s, s ∉ l → v s = value s) ∧
        (l.Nodup → ∀ s ∈ l, v s = (pos s : ℚ) * close s) := by
  intro l
  induction l with
  | nil =>
    intro value total _
    exact ⟨value, by simp [timeindexFold], fun s _ => rfl, by simp⟩
  | cons symbol rest ih =>
    intro value total h
    have hsym := h symbol (List.mem_cons_self symbol rest)
    obtain ⟨v, hfold, hout, hin⟩ := ih
      (Function.update value symbol ((pos symbol : ℚ) * close symbol))
      (total + (pos symbol : ℚ) * close symbol)
      (fun s hs => h s (List.mem_cons_of_mem symbol hs))
    refine ⟨v, ?_, ?_, ?_⟩
    · simp only [timeindexFold, hsym, List.map_cons, List.sum_cons]
      rw [hfold, add_assoc]
    · intro s hs
      have hsne : ¬(s = symbol ∨ s ∈ rest) := fun hor => hs (List.mem_cons.mpr hor)
      push_neg at hsne
      rw [hout s hsne.2, Function.update_noteq hsne.1]
    · intro hnd s hs
      have hnd' := List.nodup_cons.mp hnd
      rcases List.mem_cons.mp hs with hss | hsr
      · subst hss
        rw [hout s hnd'.1, Function.update_same]
      · exact hin hnd'.2 s hsr

/-- Whenever `timeindexFold` succeeds on a duplicate-free symbol list, the
returned total is the initial total plus the sum of the returned per-symbol
entries over the list. -/
lemma timeindexFold_ok_closure (bars : BinanceDataHandler) (pos : String → ℤ) :
    ∀ (l : List String) (value : String → ℚ) (total : ℚ) (v : String → ℚ) (t : ℚ),
      timeindexFold bars pos l value total = .ok (v, t) →
      l.Nodup →
      t = total + (l.map v).sum ∧ ∀ s, s ∉ l → v s = value s := by
  intro l
  induction l with
  | nil =>
    intro value total v t hfold _
    simp only [timeindexFold] at hfold
    obtain ⟨hv, ht⟩ := Prod.mk.injEq .. ▸ (Except.ok.injEq .. ▸ hfold)
    subst hv; subst ht
    exact ⟨by simp, fun s _ => rfl⟩
  | cons symbol rest ih =>
    intro value total v t hfold hnd
    have hnd' := List.nodup_cons.mp hnd
    simp only [timeindexFold] at hfold
    cases hc : bars.get_latest_bar_value symbol "close" with
    | error e => rw [hc] at hfold; cases hfold
    | ok c =>
      rw [hc] at hfold
      obtain ⟨ht, hout⟩ := ih _ _ v t hfold hnd'.2
      have hvsym : v symbol = (pos symbol : ℚ) * c := by
        rw [hout symbol hnd'.1, Function.update_same]
      constructor
      · rw [ht]
        simp only [List.map_cons, List.sum_cons, hvsym]
        ring
      · intro s hs
        have hsne : ¬(s = symbol ∨ s ∈ rest) := fun hor => hs (List.mem_cons.mpr hor)
        push_neg at hsne
        rw [hout s hsne.2, Function.update_noteq hsne.1]

/-- Once the continuation flag is already false and every remaining symbol's
iterator is exhausted, the `update_bars` loop changes nothing. -/
lemma updateBarsLoop_all_empty :
    ∀ (l : List String) (h : BinanceDataHandler),
      h.continue_backtest = false → (∀ s ∈ l, h.symbol_data s = some []) →
      updateBarsLoop h l = .ok h := by
  intro l
  induction l with
  | nil => intro h _ _; rfl
  | cons s rest ih =>
    intro h hcb hall
    have heta : ({ h with continue_backtest := false } : BinanceDataHandler) = h := by
      cases h
      simp only [BinanceDataHandler.mk.injEq] at hcb ⊢
      simp_all
    simp only [updateBarsLoop, hall s (List.mem_cons_self s rest), heta]
    exact ih h hcb (fun s' hs' => hall s' (List.mem_cons_of_mem s hs'))

/-
Concrete sample inputs used by counterexamples and witnesses.
-/

/-- A sample bar row whose close price is 100. -/
def sampleRow : BarRow :=
  { date := 0, «open» := 100, high := 100, low := 100, close := 100, volume := 1 }

/-- A sample feed tracking the single symbol BTC whose latest consumed bar
has close price 100. -/
def sampleBars : BinanceDataHandler :=
  { symbol_list := ["BTC"]
    symbol_data := fun s => if s = "BTC" then some [] else none
    latest_symbol_data := fun s => if s = "BTC" then some [(0, some sampleRow)] else none
    continue_backtest := true }

/-- A freshly initialised portfolio over BTC with capital 100000. -/
def samplePortfolio : Portfolio := Portfolio.init ["BTC"] ⟨0⟩ 100000

/-- The spec's example fill: BUY 10 units with commission 1 (its `fill_cost`
field is deliberately set to 999 ≠ 100 to make visible that the code reads
the price from the feed, not from the event). -/
def sampleBuyFill : FillEvent :=
  { symbol := "BTC", quantity := 10, direction := "BUY", fill_cost := 999,
    commission := 1 }

/-
Claim C6 — the naive order sizer.
-/

/-- Modelled from the spec: the naive order sizer pseudocode of §4.3 —
`quantity = floor(100 * strength)`; BUY `quantity` on LONG with a flat
position, SELL `quantity` on SHORT with a flat position, SELL/BUY
`abs(current_quantity)` on EXIT with a positive/negative position, nothing
otherwise.  Used only as the reference side of the refinement theorem. -/
def naiveSizerSpec (current_quantity : ℤ) (signal : SignalEvent) : Option OrderEvent :=
  let quantity : ℤ := Int.floor (100 * signal.strength)
  if signal.signal_type = "LONG" ∧ current_quantity = 0 then
    some { symbol := signal.symbol, order_type := "MKT", quantity := quantity,
           direction := "BUY" }
  else if signal.signal_type = "SHORT" ∧ current_quantity = 0 then
    some { symbol := signal.symbol, order_type := "MKT", quantity := quantity,
           direction := "SELL" }
  else if signal.signal_type = "EXIT" ∧ current_quantity > 0 then
    some { symbol := signal.symbol, order_type := "MKT", quantity := |current_quantity|,
           direction := "SELL" }
  else if signal.signal_type = "EXIT" ∧ current_quantity < 0 then
    some { symbol := signal.symbol, order_type := "MKT", quantity := |current_quantity|,
           direction := "BUY" }
  else none

/-- Claim C6: `generate_naive_order` is exactly the spec's deterministic
sizer as a function of the signal and the symbol's current position — in
particular it emits nothing for a LONG (or SHORT) signal when the current
position is nonzero, so a second consecutive LONG signal against an existing
position produces no order. -/
theorem naive_sizer_matches_spec (p : Portfolio) (signal : SignalEvent) :
    p.generate_naive_order signal =
      naiveSizerSpec (p.current_positions signal.symbol) signal := by
  simp only [Portfolio.generate_naive_order, naiveSizerSpec]
  split_ifs <;> simp_all
  all_goals omega

/-
Claim C5 — Signal handling.
-/

/-- A portfolio already holding 10 units of BTC. -/
def c5Portfolio : Portfolio :=
  { samplePortfolio with current_positions := fun s => if s = "BTC" then 10 else 0 }

/-- A LONG signal for BTC with strength 1. -/
def c5Signal : SignalEvent := { symbol := "BTC", signal_type := "LONG", strength := 1 }

/-- Claim C5 (counterexample): with an existing nonzero BTC position a LONG
signal makes the sizer return no order, yet `update_signal` still enqueues
one entry (the Python `None`), so something IS put on the queue — the
claim's "when the sizer returns nothing, nothing at all is enqueued" is
false at this input. -/
theorem update_signal_enqueues_none_counterexample :
    c5Portfolio.generate_naive_order c5Signal = none ∧
    c5Portfolio.update_signal (Event.signal c5Signal) [] = (c5Portfolio, [none]) ∧
    ([none] : List (Option Event)) ≠ [] := by
  exact ⟨rfl, rfl, by simp⟩

/-- Claim C5 (amended): on every Signal event the portfolio enqueues the
sizer's result unconditionally — an Order event when the sizer returns an
order and a `None` entry when it returns nothing — so the queue always grows
by exactly one entry; no portfolio state is mutated, and non-Signal events
leave both the portfolio and the queue untouched. -/
theorem update_signal_always_enqueues (p : Portfolio) (signal : SignalEvent)
    (q : List (Option Event)) :
    p.update_signal (Event.signal signal) q =
      (p, q ++ [(p.generate_naive_order signal).map Event.order]) ∧
    (p.update_signal (Event.signal signal) q).2.length = q.length + 1 ∧
    p.update_signal Event.market q = (p, q) ∧
    (∀ o : OrderEvent, p.update_signal (Event.order o) q = (p, q)) ∧
    (∀ f : FillEvent, p.update_signal (Event.fill f) q = (p, q)) := by
  exact ⟨rfl, by simp [Portfolio.update_signal], rfl, fun _ => rfl, fun _ => rfl⟩

/-
Claim C2 — holdings update on a Fill.
-/

/-- The portfolio state after applying `sampleBuyFill` to the fresh sample
portfolio against the sample feed (whose latest BTC close is 100). -/
def c2Result : Portfolio :=
  match samplePortfolio.update_fill sampleBars (Event.fill sampleBuyFill) with
  | .ok p => p
  | .error _ => samplePortfolio

/-- Claim C2 (counterexample): for the spec's own example — capital 100000,
BUY 10 units, commission 1 — the code prices the fill at the feed's latest
close (100), ignoring the `fill_cost` carried by the Fill event (999 here),
so the symbol entry becomes 1000, not `fill_cost * quantity = 9990`; and the
snapshot total immediately after the fill is `100000 - (1000 + 1) = 98999`,
not the claimed `100000 - 1`. -/
theorem fill_cost_and_total_counterexample :
    samplePortfolio.update_fill sampleBars (Event.fill sampleBuyFill) = .ok c2Result ∧
    c2Result.current_holdings.value "BTC" = 1000 ∧
    c2Result.current_holdings.value "BTC" ≠
      (fillDirectionSign sampleBuyFill.direction : ℚ) * sampleBuyFill.fill_cost *
        (sampleBuyFill.quantity : ℚ) ∧
    c2Result.current_holdings.total = 98999 ∧
    c2Result.current_holdings.total ≠ 100000 - 1 := by
  refine ⟨rfl, ?_, ?_, ?_, ?_⟩ <;>
    norm_num [c2Result, samplePortfolio, Portfolio.init, define_current_holdings,
      Portfolio.update_fill, Portfolio.update_positions_after_fill,
      Portfolio.update_holdings_after_fill, sampleBars, sampleBuyFill, sampleRow,
      fillDirectionSign_buy, BinanceDataHandler.get_latest_bar_value,
      seriesAttr_close, List.getLast?, Function.update]

/-- Claim C2 (amended): for every Fill with direction BUY (+1) or SELL (−1)
— and in fact for any direction sign — the holdings update computes
`cost = direction_sign * fill_cost * quantity` where `fill_cost` is the
feed's latest close price for the symbol (the Fill event's own `fill_cost`
field is ignored), adds `cost` to `current_holdings[symbol]`, adds the
commission, and subtracts `(cost + commission)` from both cash and total; in
the spec's example the total immediately after the fill is therefore
`100000 - 1001 = 98999`, not `100000 - 1`. -/
theorem fill_updates_holdings (p : Portfolio) (bars : BinanceDataHandler)
    (f : FillEvent) (c : ℚ)
    (hc : bars.get_latest_bar_value f.symbol "close" = .ok c) :
    ∃ p', p.update_fill bars (Event.fill f) = .ok p' ∧
      p'.current_positions f.symbol =
        p.current_positions f.symbol + fillDirectionSign f.direction * f.quantity ∧
      p'.current_holdings.value f.symbol =
        p.current_holdings.value f.symbol +
          (fillDirectionSign f.direction : ℚ) * c * (f.quantity : ℚ) ∧
      p'.current_holdings.commission = p.current_holdings.commission + f.commission ∧
      p'.current_holdings.cash =
        p.current_holdings.cash -
          ((fillDirectionSign f.direction : ℚ) * c * (f.quantity : ℚ) + f.commission) ∧
      p'.current_holdings.total =
        p.current_holdings.total -
          ((fillDirectionSign f.direction : ℚ) * c * (f.quantity : ℚ) + f.commission) := by
  simp only [Portfolio.update_fill, Portfolio.update_positions_after_fill,
    Portfolio.update_holdings_after_fill, hc]
  exact ⟨_, rfl, by simp [Function.update_same], by simp [Function.update_same],
    rfl, rfl, rfl⟩

/-- Witness for the amended C2 at the spec's example: applying
`fill_updates_holdings` to the sample portfolio, feed and BUY fill. -/
theorem fill_updates_holdings_witness :
    sampleBars.get_latest_bar_value sampleBuyFill.symbol "close" = .ok 100 ∧
    (∃ p', samplePortfolio.update_fill sampleBars (Event.fill sampleBuyFill) = .ok p' ∧
      p'.current_positions sampleBuyFill.symbol =
        samplePortfolio.current_positions sampleBuyFill.symbol +
          fillDirectionSign sampleBuyFill.direction * sampleBuyFill.quantity ∧
      p'.current_holdings.value sampleBuyFill.symbol =
        samplePortfolio.current_holdings.value sampleBuyFill.symbol +
          (fillDirectionSign sampleBuyFill.direction : ℚ) * 100 *
            (sampleBuyFill.quantity : ℚ) ∧
      p'.current_holdings.commission =
        samplePortfolio.current_holdings.commission + sampleBuyFill.commission ∧
      p'.current_holdings.cash =
        samplePortfolio.current_holdings.cash -
          ((fillDirectionSign sampleBuyFill.direction : ℚ) * 100 *
            (sampleBuyFill.quantity : ℚ) + sampleBuyFill.commission) ∧
      p'.current_holdings.total =
        samplePortfolio.current_holdings.total -
          ((fillDirectionSign sampleBuyFill.direction : ℚ) * 100 *
            (sampleBuyFill.quantity : ℚ) + sampleBuyFill.commission)) :=
  ⟨rfl, fill_updates_holdings samplePortfolio sampleBars sampleBuyFill 100 rfl⟩

/-
Claim C10 — Fill with a direction that is neither BUY nor SELL.
-/

/-- Claim C10: for a Fill whose direction is neither "BUY" nor "SELL" the
direction sign is 0, so positions and per-symbol holdings entries are
unchanged, while the commission still accumulates and cash and total each
decrease by exactly the commission. -/
theorem fill_unknown_direction (p : Portfolio) (bars : BinanceDataHandler)
    (f : FillEvent) (c : ℚ)
    (hbuy : f.direction ≠ "BUY") (hsell : f.direction ≠ "SELL")
    (hc : bars.get_latest_bar_value f.symbol "close" = .ok c) :
    ∃ p', p.update_fill bars (Event.fill f) = .ok p' ∧
      p'.current_positions = p.current_positions ∧
      p'.current_holdings.value = p.current_holdings.value ∧
      p'.current_holdings.commission = p.current_holdings.commission + f.commission ∧
      p'.current_holdings.cash = p.current_holdings.cash - f.commission ∧
      p'.current_holdings.total = p.current_holdings.total - f.commission := by
  have hdir : fillDirectionSign f.direction = 0 := by
    simp [fillDirectionSign, hbuy, hsell]
  simp only [Portfolio.update_fill, Portfolio.update_positions_after_fill,
    Portfolio.update_holdings_after_fill, hc, hdir]
  refine ⟨_, rfl, ?_, ?_, rfl, by push_cast; ring_nf, by push_cast; ring_nf⟩
  · simp
  · simp

/-- A Fill event whose direction string is neither BUY nor SELL. -/
def holdFill : FillEvent :=
  { symbol := "BTC", quantity := 10, direction := "HOLD", fill_cost := 100,
    commission := 1 }

/-- Witness for C10 at a concrete HOLD-direction fill. -/
theorem fill_unknown_direction_witness :
    holdFill.direction ≠ "BUY" ∧ holdFill.direction ≠ "SELL" ∧
    (∃ p', samplePortfolio.update_fill sampleBars (Event.fill holdFill) = .ok p' ∧
      p'.current_positions = samplePortfolio.current_positions ∧
      p'.current_holdings.value = samplePortfolio.current_holdings.value ∧
      p'.current_holdings.commission =
        samplePortfolio.current_holdings.commission + holdFill.commission ∧
      p'.current_holdings.cash =
        samplePortfolio.current_holdings.cash - holdFill.commission ∧
      p'.current_holdings.total =
        samplePortfolio.current_holdings.total - holdFill.commission) :=
  ⟨by decide, by decide,
    fill_unknown_direction samplePortfolio sampleBars holdFill 100
      (by decide) (by decide) rfl⟩

/-
Claim C8 — Fills never touch the histories or the equity curve.
-/

/-- Claim C8: processing a Fill event mutates only the current snapshot —
the `all_positions` and `all_holdings` histories, the equity curve, the
symbol list and the initial capital are all left completely unchanged. -/
theorem fill_preserves_histories (p : Portfolio) (bars : BinanceDataHandler)
    (f : FillEvent) (c : ℚ)
    (hc : bars.get_latest_bar_value f.symbol "close" = .ok c) :
    ∃ p', p.update_fill bars (Event.fill f) = .ok p' ∧
      p'.all_positions = p.all_positions ∧
      p'.all_holdings = p.all_holdings ∧
      p'.equity_curve = p.equity_curve ∧
      p'.symbol_list = p.symbol_list ∧
      p'.initial_capital = p.initial_capital := by
  simp only [Portfolio.update_fill, Portfolio.update_positions_after_fill,
    Portfolio.update_holdings_after_fill, hc]
  exact ⟨_, rfl, rfl, rfl, rfl, rfl, rfl⟩

/-- Witness for C8 at the sample BUY fill. -/
theorem fill_preserves_histories_witness :
    sampleBars.get_latest_bar_value sampleBuyFill.symbol "close" = .ok 100 ∧
    (∃ p', samplePortfolio.update_fill sampleBars (Event.fill sampleBuyFill) = .ok p' ∧
      p'.all_positions = samplePortfolio.all_positions ∧
      p'.all_holdings = samplePortfolio.all_holdings ∧
      p'.equity_curve = samplePortfolio.equity_curve ∧
      p'.symbol_list = samplePortfolio.symbol_list ∧
      p'.initial_capital = samplePortfolio.initial_capital) :=
  ⟨rfl, fill_preserves_histories samplePortfolio sampleBars sampleBuyFill 100 rfl⟩

/-
Claim C7 — the Market-event transition appends exactly one row to each
history.
-/

/-- Claim C7: on a Market event (for a duplicate-free symbol list whose feed
lookups succeed) exactly one row is appended to each history: the positions
row copies `current_positions` verbatim, timestamped with the feed's latest
bar datetime; the holdings row sets each symbol's entry to
`current_positions[symbol] * latest close` (prices taken from the feed — the
last conjunct shows the event payload is irrelevant), sets
`total = cash + Σ market values`, and carries `cash` and cumulative
`commission` over unchanged from `current_holdings`. -/
theorem market_event_appends_one_row (p : Portfolio) (bars : BinanceDataHandler)
    (event : Event) (s0 : String) (rest : List String) (dt : ℕ) (close : String → ℚ)
    (hsl : p.symbol_list = s0 :: rest)
    (hnd : p.symbol_list.Nodup)
    (hdt : bars.get_latest_bar_datetime s0 = .ok dt)
    (hcl : ∀ s ∈ p.symbol_list, bars.get_latest_bar_value s "close" = .ok (close s)) :
    ∃ hvalue : String → ℚ,
      p.update_timeindex bars event =
        .ok { p with
          all_positions := p.all_positions ++
            [{ pos := p.current_positions, datetime := dt }]
          all_holdings := p.all_holdings ++
            [{ value := hvalue, datetime := dt, cash := p.current_holdings.cash,
               commission := p.current_holdings.commission,
               total := p.current_holdings.cash +
                 (p.symbol_list.map fun s => (p.current_positions s : ℚ) * close s).sum }] } ∧
      (∀ s ∈ p.symbol_list, hvalue s = (p.current_positions s : ℚ) * close s) ∧
      (∀ event' : Event, p.update_timeindex bars event' = p.update_timeindex bars event) := by
  obtain ⟨v, hfold, _, hin⟩ := timeindexFold_spec bars p.current_positions close
    p.symbol_list (fun _ => 0) p.current_holdings.cash hcl
  refine ⟨v, ?_, hin hnd, fun _ => rfl⟩
  rw [hsl] at hfold
  simp only [Portfolio.update_timeindex, hsl, hdt, hfold]

/-- Witness for C7: one Market event on the fresh sample portfolio against
the sample feed (latest BTC bar: label 0, close 100). -/
theorem market_event_appends_one_row_witness :
    samplePortfolio.symbol_list = "BTC" :: [] ∧
    samplePortfolio.symbol_list.Nodup ∧
    sampleBars.get_latest_bar_datetime "BTC" = .ok 0 ∧
    (∃ hvalue : String → ℚ,
      samplePortfolio.update_timeindex sampleBars Event.market =
        .ok { samplePortfolio with
          all_positions := samplePortfolio.all_positions ++
            [{ pos := samplePortfolio.current_positions, datetime := 0 }]
          all_holdings := samplePortfolio.all_holdings ++
            [{ value := hvalue, datetime := 0,
               cash := samplePortfolio.current_holdings.cash,
               commission := samplePortfolio.current_holdings.commission,
               total := samplePortfolio.current_holdings.cash +
                 (samplePortfolio.symbol_list.map fun s =>
                   (samplePortfolio.current_positions s : ℚ) * 100).sum }] } ∧
      (∀ s ∈ samplePortfolio.symbol_list,
        hvalue s = (samplePortfolio.current_positions s : ℚ) * 100) ∧
      (∀ event' : Event,
        samplePortfolio.update_timeindex sampleBars event' =
          samplePortfolio.update_timeindex sampleBars Event.market)) :=
  ⟨rfl, by decide, rfl,
    market_event_appends_one_row samplePortfolio sampleBars Event.market
      "BTC" [] 0 (fun _ => 100) rfl (by decide) rfl
      (by intro s hs; rw [List.mem_singleton.mp hs]; rfl)⟩

/-
Claim C1 — accounting closure.
-/

/-- The portfolio state after applying `sampleBuyFill` to the fresh sample
portfolio (used by the C1 counterexample and witness). -/
def c1FillResult : Portfolio :=
  match samplePortfolio.update_fill sampleBars (Event.fill sampleBuyFill) with
  | .ok p => p
  | .error _ => samplePortfolio

/-- The portfolio state after one Market event on the fresh sample portfolio
(used by the C1 witness). -/
def c1TimeResult : Portfolio :=
  match samplePortfolio.update_timeindex sampleBars Event.market with
  | .ok p => p
  | .error _ => samplePortfolio

/-- Claim C1 (counterexample): immediately after a single BUY fill of 10
units at market price 100 with commission 1, the current snapshot violates
`total == cash + Σ market values`: total and cash are both 98999 while the
BTC entry is 1000, so `cash + Σ = 99999 ≠ 98999 = total`. -/
theorem snapshot_closure_counterexample :
    samplePortfolio.update_fill sampleBars (Event.fill sampleBuyFill) = .ok c1FillResult ∧
    c1FillResult.current_holdings.total ≠
      c1FillResult.current_holdings.cash +
        (c1FillResult.symbol_list.map c1FillResult.current_holdings.value).sum := by
  refine ⟨rfl, ?_⟩
  norm_num [c1FillResult, samplePortfolio, Portfolio.init, define_current_holdings,
    Portfolio.update_fill, Portfolio.update_positions_after_fill,
    Portfolio.update_holdings_after_fill, sampleBars, sampleBuyFill, sampleRow,
    fillDirectionSign_buy, BinanceDataHandler.get_latest_bar_value,
    seriesAttr_close, List.getLast?, Function.update]

/-- Claim C1 (amended): the accounting-closure identity
`total == cash + Σ per-symbol values` holds exactly for every row appended
to the holdings history by a Market event; it does NOT survive a Fill on the
current snapshot — a Fill changes the snapshot's closure defect
`total - (cash + Σ values)` by exactly `-cost` (with
`cost = direction_sign * latest_close * quantity`), so the snapshot identity
fails after any fill with nonzero cost. -/
theorem accounting_closure_amended :
    (∀ (p : Portfolio) (bars : BinanceDataHandler) (event : Event) (p' : Portfolio),
      p.symbol_list.Nodup →
      p.update_timeindex bars event = .ok p' →
      ∃ row : HoldingsRow, p'.all_holdings = p.all_holdings ++ [row] ∧
        row.total = row.cash + (p.symbol_list.map row.value).sum) ∧
    (∀ (p : Portfolio) (bars : BinanceDataHandler) (f : FillEvent) (c : ℚ)
        (p' : Portfolio),
      p.symbol_list.Nodup → f.symbol ∈ p.symbol_list →
      bars.get_latest_bar_value f.symbol "close" = .ok c →
      p.update_fill bars (Event.fill f) = .ok p' →
      p'.current_holdings.total -
          (p'.current_holdings.cash +
            (p'.symbol_list.map p'.current_holdings.value).sum) =
        p.current_holdings.total -
          (p.current_holdings.cash +
            (p.symbol_list.map p.current_holdings.value).sum) -
          (fillDirectionSign f.direction : ℚ) * c * (f.quantity : ℚ)) := by
  constructor
  · intro p bars event p' hnd hok
    cases hsl : p.symbol_list with
    | nil => simp [Portfolio.update_timeindex, hsl] at hok
    | cons s0 rest =>
      rw [hsl] at hnd
      cases hdt : bars.get_latest_bar_datetime s0 with
      | error e => simp [Portfolio.update_timeindex, hsl, hdt] at hok
      | ok dt =>
        cases hfold : timeindexFold bars p.current_positions (s0 :: rest) (fun _ => 0)
            p.current_holdings.cash with
        | error e => simp [Portfolio.update_timeindex, hsl, hdt, hfold] at hok
        | ok vt =>
          obtain ⟨v, t⟩ := vt
          obtain ⟨ht, -⟩ := timeindexFold_ok_closure bars p.current_positions
            (s0 :: rest) (fun _ => 0) p.current_holdings.cash v t hfold hnd
          simp only [Portfolio.update_timeindex, hsl, hdt, hfold,
            Except.ok.injEq] at hok
          subst hok
          refine ⟨_, rfl, ?_⟩
          exact ht
  · intro p bars f c p' hnd hmem hc hok
    rw [Portfolio.update_fill, Portfolio.update_holdings_after_fill,
      Portfolio.update_positions_after_fill] at hok
    simp only [hc] at hok
    cases hok
    simp only
    rw [sum_map_update p.current_holdings.value f.symbol _ p.symbol_list hnd hmem]
    ring

/-- Witness for the amended C1: the Market-event half at the sample
portfolio and feed, and the Fill half at the sample BUY fill (whose closure
defect changes from 0 to −1000). -/
theorem accounting_closure_amended_witness :
    (∃ row : HoldingsRow,
      c1TimeResult.all_holdings = samplePortfolio.all_holdings ++ [row] ∧
      row.total = row.cash + (samplePortfolio.symbol_list.map row.value).sum) ∧
    (c1FillResult.current_holdings.total -
        (c1FillResult.current_holdings.cash +
          (c1FillResult.symbol_list.map c1FillResult.current_holdings.value).sum) =
      samplePortfolio.current_holdings.total -
        (samplePortfolio.current_holdings.cash +
          (samplePortfolio.symbol_list.map samplePortfolio.current_holdings.value).sum) -
        (fillDirectionSign sampleBuyFill.direction : ℚ) * 100 *
          (sampleBuyFill.quantity : ℚ)) :=
  ⟨accounting_closure_amended.1 samplePortfolio sampleBars Event.market c1TimeResult
      (by decide) rfl,
    accounting_closure_amended.2 samplePortfolio sampleBars sampleBuyFill 100
      c1FillResult (by decide) (by decide) rfl rfl⟩

/-
Claim C3 — behaviour of `update_bars` once the data is exhausted.
-/

/-- The events put on an (initially empty) queue by calling `update_bars` on
the sample feed, whose only symbol's iterator is already exhausted. -/
def c3Emitted : List (Option Event) :=
  match sampleBars.update_bars [] with
  | .ok (_, q) => q
  | .error _ => []

/-- Claim C3 (counterexample): the sample feed's sole symbol BTC is already
exhausted, yet `update_bars` still puts a Market event on the queue — the
claim's "emits no further Market events onto the queue" is false (the
`events.put(MarketEvent())` in the source is unconditional). -/
theorem exhausted_advance_still_emits_market :
    sampleBars.symbol_data "BTC" = some [] ∧
    c3Emitted = [some Event.market] ∧
    c3Emitted ≠ [] := by
  exact ⟨rfl, rfl, by rw [show c3Emitted = [some Event.market] from rfl]; simp⟩

/-- Claim C3 (amended): once every symbol's iterator is exhausted (for a
feed built by the loader all iterators have the same length, so they exhaust
simultaneously), `update_bars` sets `continue_backtest` to false, appends no
bar to any symbol's latest history and performs no other state mutation — so
the flag stays false on every later call — but it still unconditionally
enqueues one Market event per call, including the exhausted ones. -/
theorem exhausted_advance_amended (h : BinanceDataHandler) (q : List (Option Event))
    (s0 : String) (rest : List String)
    (hsl : h.symbol_list = s0 :: rest)
    (hex : ∀ s ∈ h.symbol_list, h.symbol_data s = some []) :
    h.update_bars q =
      .ok ({ h with continue_backtest := false }, q ++ [some Event.market]) := by
  have h0 : h.symbol_data s0 = some [] := hex s0 (hsl ▸ List.mem_cons_self s0 rest)
  have hloop : updateBarsLoop { h with continue_backtest := false } rest =
      .ok { h with continue_backtest := false } :=
    updateBarsLoop_all_empty rest _ rfl
      (fun s hs => hex s (hsl ▸ List.mem_cons_of_mem s0 hs))
  have hrun : updateBarsLoop h (s0 :: rest) = .ok { h with continue_backtest := false } := by
    simp only [updateBarsLoop, h0]
    exact hloop
  simp only [BinanceDataHandler.update_bars, hsl, hrun]

/-- Witness for the amended C3: the exhausted sample feed, an empty queue. -/
theorem exhausted_advance_amended_witness :
    sampleBars.update_bars [] =
      .ok ({ sampleBars with continue_backtest := false }, [some Event.market]) :=
  exhausted_advance_amended sampleBars [] "BTC" [] rfl (by decide)

/-
Claim C9 — accessors on a never-registered symbol.
-/

/-- Claim C9: every feed accessor (`get_latest_bar`, `get_latest_bars`,
`get_latest_bar_datetime`, `get_latest_bar_value`) invoked on a symbol that
was never registered in the loaded feed fails with the UnknownSymbol error
(the re-raised `KeyError`), never a silent default. -/
theorem unknown_symbol_accessors (symbol_list : List String)
    (raw : String → List BarRow) (symbol : String) (N : ℕ) (value_type : String)
    (hsym : symbol ∉ symbol_list) :
    (load_data_from_binance symbol_list raw).get_latest_bar symbol =
      .error FeedError.unknownSymbol ∧
    (load_data_from_binance symbol_list raw).get_latest_bars symbol N =
      .error FeedError.unknownSymbol ∧
    (load_data_from_binance symbol_list raw).get_latest_bar_datetime symbol =
      .error FeedError.unknownSymbol ∧
    (load_data_from_binance symbol_list raw).get_latest_bar_value symbol value_type =
      .error FeedError.unknownSymbol := by
  have hl : (load_data_from_binance symbol_list raw).latest_symbol_data symbol = none := by
    simp [load_data_from_binance, hsym]
  refine ⟨?_, ?_, ?_, ?_⟩ <;>
    simp [BinanceDataHandler.get_latest_bar, BinanceDataHandler.get_latest_bars,
      BinanceDataHandler.get_latest_bar_datetime,
      BinanceDataHandler.get_latest_bar_value, hl]

/-- Witness for C9: querying ETH on a feed that only registered BTC. -/
theorem unknown_symbol_accessors_witness :
    ("ETH" ∉ (["BTC"] : List String)) ∧
    ((load_data_from_binance ["BTC"] fun _ => [sampleRow]).get_latest_bar "ETH" =
      .error FeedError.unknownSymbol ∧
    (load_data_from_binance ["BTC"] fun _ => [sampleRow]).get_latest_bars "ETH" 2 =
      .error FeedError.unknownSymbol ∧
    (load_data_from_binance ["BTC"] fun _ => [sampleRow]).get_latest_bar_datetime "ETH" =
      .error FeedError.unknownSymbol ∧
    (load_data_from_binance ["BTC"] fun _ => [sampleRow]).get_latest_bar_value "ETH" "close" =
      .error FeedError.unknownSymbol) :=
  ⟨by decide,
    unknown_symbol_accessors ["BTC"] (fun _ => [sampleRow]) "ETH" 2 "close" (by decide)⟩

/-
Claim C4 — merged index and forward-fill.
-/

/-- Symbol A's first native bar: timestamp (Date) 0, close 10. -/
def c4RowA0 : BarRow := { date := 0, «open» := 10, high := 10, low := 10, close := 10, volume := 1 }

/-- Symbol A's second native bar: timestamp (Date) 2, close 30. -/
def c4RowA2 : BarRow := { date := 2, «open» := 30, high := 30, low := 30, close := 30, volume := 1 }

/-- Symbol B's native bars at timestamps 0, 1, 2. -/
def c4RowB0 : BarRow := { date := 0, «open» := 1, high := 1, low := 1, close := 1, volume := 1 }

/-- Symbol B's bar at timestamp 1. -/
def c4RowB1 : BarRow := { date := 1, «open» := 2, high := 2, low := 2, close := 2, volume := 1 }

/-- Symbol B's bar at timestamp 2. -/
def c4RowB2 : BarRow := { date := 2, «open» := 3, high := 3, low := 3, close := 3, volume := 1 }

/-- The claim's failing input: A has native bars at t ∈ {0, 2}, B at
t ∈ {0, 1, 2}. -/
def c4Raw : String → List BarRow := fun s =>
  if s = "A" then [c4RowA0, c4RowA2]
  else if s = "B" then [c4RowB0, c4RowB1, c4RowB2]
  else []

/-- The loaded feed over symbols [A, B] with the failing input. -/
def c4Feed : BinanceDataHandler := load_data_from_binance ["A", "B"] c4Raw

/-- The feed after one `update_bars` call. -/
def c4FeedAfterOne : BinanceDataHandler :=
  match c4Feed.update_bars [] with
  | .ok (h1, _) => h1
  | .error _ => c4Feed

/-- The feed after two `update_bars` calls. -/
def c4FeedAfterTwo : BinanceDataHandler :=
  match c4FeedAfterOne.update_bars [] with
  | .ok (h2, _) => h2
  | .error _ => c4FeedAfterOne

/-- Claim C4 (code bug, evaluated at the claim's own failing input): the
code never builds the union index — `combined_index.union(...)`'s result is
discarded and the DataFrame index is the positional RangeIndex, so the
merged index is `range(len(A)) = [0, 1]`, not the union {0, 1, 2} of native
timestamps.  Advancing the feed steps A through its native rows only: at the
first step both symbols show their t = 0 bars, and at the second step —
the only step at which B's bar carries timestamp 1 — A's bar is its native
t = 2 bar with close 30, NOT a forward-filled copy of its t = 0 bar
(close 10); B's own t = 2 bar is dropped entirely. -/
theorem forward_fill_union_code_bug :
    combinedIndexOf ["A", "B"] c4Raw = [0, 1] ∧
    (c4Raw "A").map BarRow.date = [0, 2] ∧
    (c4Raw "B").map BarRow.date = [0, 1, 2] ∧
    c4FeedAfterOne.get_latest_bar_value "A" "Date" = .ok 0 ∧
    c4FeedAfterOne.get_latest_bar_value "A" "close" = .ok 10 ∧
    c4FeedAfterOne.get_latest_bar_value "B" "Date" = .ok 0 ∧
    c4FeedAfterTwo.get_latest_bar_value "B" "Date" = .ok 1 ∧
    c4FeedAfterTwo.get_latest_bar_value "A" "Date" = .ok 2 ∧
    c4FeedAfterTwo.get_latest_bar_value "A" "close" = .ok 30 ∧
    (30 : ℚ) ≠ 10 := by
  exact ⟨rfl, rfl, rfl, rfl, rfl, rfl, rfl, rfl, rfl, by norm_num⟩

end Backtester
